import Mathlib

/-!
# Camera HTTP server: frame life cycle of `jpg_handler` and `stream_handler`

A shallow embedding of `src/main/app_httpd.c`.  The two handlers talk to the
camera driver and to the HTTP daemon through calls whose answers the program
does not control.  Each such answer is an input of the model, and every call
the handler makes is recorded, in program order, in a list of `Event`s.

* Pointers are addresses (`Nat`), `0` being `NULL`.
* `esp_camera_fb_get` answers `none` for `NULL`, or `some` frame.
* The streaming loop is `while (true)`; the model runs it for a number of
  passes (`fuel`).  A run that is still looping when the passes are used up
  has result `none`; a run that left the loop has result `some res`.
-/

namespace CameraHttpd

/-! ## Vendor types and constants -/

/-- Error codes of ESP-IDF (`esp_err.h`): a C `int`. -/
abbrev esp_err_t := Int

/-- Value of `ESP_OK` in ESP-IDF (`esp_err.h`). -/
def ESP_OK : esp_err_t := 0

/-- Value of `ESP_FAIL` in ESP-IDF (`esp_err.h`). -/
def ESP_FAIL : esp_err_t := -1

/-- An address; `0` is `NULL`. -/
abbrev Ptr := Nat

/-- Pixel formats of the camera driver (`sensor.h`).  The handlers only compare
a format with `PIXFORMAT_JPEG`. -/
inductive pixformat_t where
  | PIXFORMAT_RGB565
  | PIXFORMAT_YUV422
  | PIXFORMAT_YUV420
  | PIXFORMAT_GRAYSCALE
  | PIXFORMAT_JPEG
  | PIXFORMAT_RGB888
  | PIXFORMAT_RAW
  | PIXFORMAT_RGB444
  | PIXFORMAT_RGB555
  deriving DecidableEq

open pixformat_t

/-- A frame handed out by the driver: `addr` is the `camera_fb_t *` itself, the
other fields are the members the handlers read (`fb->buf`, `fb->len`,
`fb->format`). -/
structure camera_fb_t where
  addr : Ptr
  buf : Ptr
  len : Nat
  format : pixformat_t
  deriving DecidableEq

/-- The data argument of a send call: a string literal of the program, or memory
at an address. -/
inductive Buf where
  | lit (s : String)
  | mem (p : Ptr)
  deriving DecidableEq

/-- The `strlen` of a string literal without embedded NUL: its number of bytes. -/
def strlen (s : String) : Nat := s.utf8ByteSize

/-- One call made by a handler, with the answer it got where the handler reads
the answer (the answer of `httpd_resp_set_type` is an input of `stream_handler`). -/
inductive Event where
  /-- Call `httpd_resp_set_type(req, type)`. -/
  | set_type (type : String)
  /-- Call `httpd_resp_set_hdr(req, field, value)`. -/
  | set_hdr (field value : String)
  /-- Call `esp_camera_fb_get()` and the frame it answered (`none` is `NULL`). -/
  | fb_get (fb : Option camera_fb_t)
  /-- Call `frame2jpg(fb, quality, &out, &out_len)`: `none` is `false`, `some (out, out_len)`
  is `true` with the buffer it allocated. -/
  | frame2jpg (fb : camera_fb_t) (quality : Nat) (out : Option (Ptr × Nat))
  /-- Call `httpd_resp_send_chunk(req, buf, len)` and its result. -/
  | send_chunk (buf : Buf) (len : Nat) (res : esp_err_t)
  /-- Call `httpd_resp_send(req, buf, len)` and its result. -/
  | send (buf : Buf) (len : Nat) (res : esp_err_t)
  /-- Call `httpd_resp_send_500(req)`. -/
  | send_500
  /-- Call `free(p)`. -/
  | free (p : Ptr)
  /-- Call `esp_camera_fb_return(fb)`. -/
  | fb_return (fb : camera_fb_t)
  /-- Call of `ESP_LOGE` or `ESP_LOGI` with the given message. -/
  | log (msg : String)
  deriving DecidableEq

/-! ## `jpg_handler` -/

/-- The handler `jpg_handler` (lines 38-57).  `fb_get` is the answer of `esp_camera_fb_get`,
`send_res` the result of `httpd_resp_send` should it be called.  Returns the calls
made and the handler's return value. -/
def jpg_handler (fb_get : Option camera_fb_t) (send_res : esp_err_t) :
    List Event × esp_err_t :=
  match fb_get with
  | none =>
    ([Event.fb_get none,
      Event.log "Camera capture failed",
      Event.send_500],
     ESP_FAIL)
  | some fb =>
    let res := send_res
    ([Event.fb_get (some fb),
      Event.set_type "image/jpeg",
      Event.set_hdr "Content-Disposition" "inline; filename=capture.jpg",
      Event.set_hdr "Access-Control-Allow-Origin" "*",
      Event.send (Buf.mem fb.buf) fb.len res,
      Event.fb_return fb],
     res)

/-! ## `stream_handler` -/

/-- The answers of the outside world during one pass of the streaming loop. -/
structure Iteration where
  /-- Answer of `esp_camera_fb_get()`. -/
  fb : Option camera_fb_t
  /-- Answer of `frame2jpg`, should it be called: `none` is `false`; `some (out, out_len)`
  is `true`, with the allocated buffer stored through the out-parameters. -/
  jpg : Option (Ptr × Nat)
  /-- Result of the `k`-th `httpd_resp_send_chunk` call of the pass (`k = 0, 1, 2, 3`),
  should it be made. -/
  chunk : Nat → esp_err_t

/-- The answers of the outside world during a run of `stream_handler`. -/
structure Env where
  /-- Result of `httpd_resp_set_type`. -/
  set_type : esp_err_t
  /-- Answers during the `i`-th pass of the loop (`i = 0, 1, ...`). -/
  iter : Nat → Iteration

/-- The local variables of `stream_handler` (lines 61-64). -/
structure Locals where
  fb : Option camera_fb_t
  res : esp_err_t
  _jpg_buf_len : Nat
  _jpg_buf : Ptr
  deriving DecidableEq

/-- One guarded chunk write (lines 95-97, 98-101, 102-104, 105-107):
`if (res == ESP_OK) res = httpd_resp_send_chunk(req, buf, len);`
where `r` is the result the call would give. -/
def send_chunk_if_ok (l : Locals) (buf : Buf) (len : Nat) (r : esp_err_t) :
    Locals × List Event :=
  if l.res = ESP_OK then
    ({ l with res := r }, [Event.send_chunk buf len r])
  else
    (l, [])

/-- Lines 95-107: the four guarded chunk writes of one pass. -/
def send_part (it : Iteration) (l : Locals) : Locals × List Event :=
  let (l1, e1) := send_chunk_if_ok l (Buf.lit "--frame\r\n") (strlen "--frame\r\n") (it.chunk 0)
  let (l2, e2) := send_chunk_if_ok l1 (Buf.lit "Content-Type: image/jpeg\r\n\r\n")
                    (strlen "Content-Type: image/jpeg\r\n\r\n") (it.chunk 1)
  let (l3, e3) := send_chunk_if_ok l2 (Buf.mem l2._jpg_buf) l2._jpg_buf_len (it.chunk 2)
  let (l4, e4) := send_chunk_if_ok l3 (Buf.lit "\r\n") (strlen "\r\n") (it.chunk 3)
  (l4, e1 ++ e2 ++ e3 ++ e4)

/-- Lines 109-120: release what the pass holds, then leave the loop if a write failed.
The `Bool` is `true` when the pass ends in `break`. -/
def release_frame (fb : camera_fb_t) (l : Locals) : Locals × List Event × Bool :=
  let (l1, e1) :=
    if fb.format ≠ PIXFORMAT_JPEG then
      ({ l with _jpg_buf := 0 }, [Event.free l._jpg_buf])
    else
      (l, [])
  let l2 := { l1 with fb := none }
  let e2 := [Event.fb_return fb]
  if l2.res ≠ ESP_OK then
    (l2, e1 ++ e2 ++ [Event.log "Client disconnected or error occurred"], true)
  else
    (l2, e1 ++ e2, false)

/-- The body of the `while (true)` loop (lines 75-120).  The `Bool` is `true` when the
pass ends in `break`.  A failing `frame2jpg` leaves its out-parameters untouched, as
the driver's implementation does. -/
def loop_body (it : Iteration) (l : Locals) : Locals × List Event × Bool :=
  match it.fb with
  | none =>
    ({ l with fb := none, res := ESP_FAIL },
     [Event.fb_get none, Event.log "Camera capture failed"], true)
  | some fb =>
    if fb.format ≠ PIXFORMAT_JPEG then
      match it.jpg with
      | none =>
        ({ l with fb := some fb, res := ESP_FAIL },
         [Event.fb_get (some fb), Event.frame2jpg fb 80 none,
          Event.log "JPEG compression failed", Event.fb_return fb], true)
      | some (out, out_len) =>
        let l1 := { l with fb := some fb, _jpg_buf := out, _jpg_buf_len := out_len }
        let (l2, e2) := send_part it l1
        let (l3, e3, brk) := release_frame fb l2
        (l3, [Event.fb_get (some fb), Event.frame2jpg fb 80 (some (out, out_len))] ++ e2 ++ e3, brk)
    else
      let l1 := { l with fb := some fb, _jpg_buf_len := fb.len, _jpg_buf := fb.buf }
      let (l2, e2) := send_part it l1
      let (l3, e3, brk) := release_frame fb l2
      (l3, [Event.fb_get (some fb)] ++ e2 ++ e3, brk)

/-- The `while (true)` loop (lines 74-121), run for at most `fuel` passes starting with
pass number `i`.  Returns the calls made and, when the loop was left, the locals at the
`break`. -/
def stream_loop (iter : Nat → Iteration) : Nat → Nat → Locals → List Event × Option Locals
  | 0, _, _ => ([], none)
  | fuel + 1, i, l =>
    match loop_body (iter i) l with
    | (l1, e1, true) => (e1, some l1)
    | (l1, e1, false) =>
      let (e2, r) := stream_loop iter fuel (i + 1) l1
      (e1 ++ e2, r)

/-- The cleanup block after the loop (lines 123-129). -/
def cleanup (l : Locals) : List Event :=
  (match l.fb with
   | some fb => [Event.fb_return fb]
   | none => []) ++
  (if l._jpg_buf ≠ 0 then [Event.free l._jpg_buf] else [])

/-- The handler `stream_handler` (lines 60-132) with the loop run for at most `fuel` passes.
Returns the calls made and the return value (`none` while the loop is still running). -/
def stream_handler (env : Env) (fuel : Nat) : List Event × Option esp_err_t :=
  let res := env.set_type
  let e0 := [Event.set_type "multipart/x-mixed-replace;boundary=frame"]
  if res ≠ ESP_OK then
    (e0, some res)
  else
    let e1 := [Event.set_hdr "Access-Control-Allow-Origin" "*",
               Event.set_hdr "X-Framerate" "60"]
    match stream_loop env.iter fuel 0
        { fb := none, res := res, _jpg_buf_len := 0, _jpg_buf := 0 } with
    | (e2, none) => (e0 ++ e1 ++ e2, none)
    | (e2, some l) => (e0 ++ e1 ++ e2 ++ cleanup l, some l.res)

/-! ## Observations on a list of calls -/

/-- Whether the call is an `esp_camera_fb_get`. -/
def Event.is_fb_get : Event → Bool
  | Event.fb_get _ => true
  | _ => false

/-- Whether the call is a `frame2jpg`. -/
def Event.is_frame2jpg : Event → Bool
  | Event.frame2jpg _ _ _ => true
  | _ => false

/-- Whether the call is an `httpd_resp_send_chunk`. -/
def Event.is_chunk : Event → Bool
  | Event.send_chunk _ _ _ => true
  | _ => false

/-- The chunk writes among the calls, in order: data and length of each. -/
def chunks : List Event → List (Buf × Nat)
  | [] => []
  | Event.send_chunk buf len _ :: es => (buf, len) :: chunks es
  | _ :: es => chunks es

/-- What the handler holds at some point of a run: the frames it got from the driver and
has not returned, and the buffers `frame2jpg` allocated for it that it has not freed. -/
structure Held where
  frames : List camera_fb_t
  bufs : List Ptr
  deriving DecidableEq

/-- Effect of one call on what is held: `esp_camera_fb_get` answering a frame and a
successful `frame2jpg` add to it, `esp_camera_fb_return` and `free` take away from it. -/
def Held.step (h : Held) : Event → Held
  | Event.fb_get (some fb) => { h with frames := fb :: h.frames }
  | Event.fb_return fb => { h with frames := h.frames.erase fb }
  | Event.frame2jpg _ _ (some (out, _)) => { h with bufs := out :: h.bufs }
  | Event.free p => { h with bufs := h.bufs.erase p }
  | _ => h

/-- What is held after the calls `es`, starting from `h`. -/
def Held.after (h : Held) : List Event → Held
  | [] => h
  | e :: es => (h.step e).after es

/-- What is held after the calls `es` of a run that started holding nothing. -/
def held (es : List Event) : Held := Held.after ⟨[], []⟩ es

/-- The buffers a successful `frame2jpg` has allocated so far and that are not freed:
the only addresses `free` may be called on.  `free_ok h es` says every `free` among the
calls `es`, made from the state `h`, is of such a buffer. -/
def free_ok (h : Held) : List Event → Bool
  | [] => true
  | Event.free p :: es => decide (p ∈ h.bufs) && free_ok (h.step (Event.free p)) es
  | e :: es => free_ok (h.step e) es

/-- A pass in which every call succeeds: a frame is captured, it is JPEG or `frame2jpg`
succeeds, and the four chunk writes succeed. -/
def Iteration.ok (it : Iteration) : Bool :=
  (match it.fb with
   | none => false
   | some fb => decide (fb.format = PIXFORMAT_JPEG) || it.jpg.isSome) &&
  decide (it.chunk 0 = ESP_OK) && decide (it.chunk 1 = ESP_OK) &&
  decide (it.chunk 2 = ESP_OK) && decide (it.chunk 3 = ESP_OK)

/-- The JPEG bytes of a pass, as the specification describes them: the frame's own
`buf` and `len` when its format is JPEG, otherwise the buffer and length produced by
`frame2jpg`. -/
def jpeg_bytes (it : Iteration) : Option (Ptr × Nat) :=
  match it.fb with
  | none => none
  | some fb => if fb.format = PIXFORMAT_JPEG then some (fb.buf, fb.len) else it.jpg

/-- The chunks of one part of the multipart body, as the specification describes them:
the boundary line, the `Content-Type` header line, the JPEG bytes, and a trailing CRLF. -/
def part_chunks (it : Iteration) : List (Buf × Nat) :=
  match jpeg_bytes it with
  | none => []
  | some (p, n) =>
    [(Buf.lit "--frame\r\n", 9),
     (Buf.lit "Content-Type: image/jpeg\r\n\r\n", 28),
     (Buf.mem p, n),
     (Buf.lit "\r\n", 2)]

/-- The chunks of the first `n` parts, in frame order. -/
def stream_chunks (iter : Nat → Iteration) : Nat → List (Buf × Nat)
  | 0 => []
  | n + 1 => stream_chunks iter n ++ part_chunks (iter n)

/-- Invariant of a run, checked call by call from the state `h`: at most one transcode
buffer is live at every point, and nothing at all is held whenever `esp_camera_fb_get`
is called. -/
def Quiet (h : Held) : List Event → Prop
  | [] => h.bufs.length ≤ 1
  | e :: es =>
    h.bufs.length ≤ 1 ∧ (e.is_fb_get = true → h = ⟨[], []⟩) ∧ Quiet (h.step e) es

/-- The calls of `stream_handler` from the loop on: those of the loop and, once the loop
is left, those of the cleanup block. -/
def loop_trace (iter : Nat → Iteration) (fuel i : Nat) (l : Locals) : List Event :=
  (stream_loop iter fuel i l).1 ++
    (match (stream_loop iter fuel i l).2 with
     | none => []
     | some l1 => cleanup l1)

/-- The first chunk of every part: the boundary line. -/
def delimiter : Buf × Nat := (Buf.lit "--frame\r\n", 9)

/-- The four chunks a pass writes when the locals are `l` and every write succeeds. -/
def four_chunks (l : Locals) : List (Buf × Nat) :=
  [delimiter,
   (Buf.lit "Content-Type: image/jpeg\r\n\r\n", 28),
   (Buf.mem l._jpg_buf, l._jpg_buf_len),
   (Buf.lit "\r\n", 2)]

/-! ## Example inputs -/

/-- A JPEG frame of 300 bytes. -/
def frame_jpeg : camera_fb_t := ⟨1000, 2000, 300, PIXFORMAT_JPEG⟩

/-- An RGB565 frame of 300 bytes. -/
def frame_rgb : camera_fb_t := ⟨1000, 2000, 300, PIXFORMAT_RGB565⟩

/-- Every capture answers a JPEG frame and every write succeeds. -/
def env_all_ok : Env := ⟨ESP_OK, fun _ => ⟨some frame_jpeg, none, fun _ => ESP_OK⟩⟩

/-- Every capture answers an RGB565 frame, every transcode gives a buffer of 77 bytes at
address 5000, and every write succeeds. -/
def env_rgb_ok : Env := ⟨ESP_OK, fun _ => ⟨some frame_rgb, some (5000, 77), fun _ => ESP_OK⟩⟩

/-- The camera answers a JPEG frame and the first chunk write fails (the client has
disconnected). -/
def env_jpeg_write_fails : Env := ⟨ESP_OK, fun _ => ⟨some frame_jpeg, none, fun _ => ESP_FAIL⟩⟩

/-- The camera answers an RGB565 frame and `frame2jpg` fails. -/
def env_transcode_fails : Env := ⟨ESP_OK, fun _ => ⟨some frame_rgb, none, fun _ => ESP_OK⟩⟩

/-- The first pass transcodes an RGB565 frame and succeeds; in the second pass the third
chunk write (the JPEG bytes) fails with code `9`. -/
def env_second_pass_write_fails : Env :=
  ⟨ESP_OK, fun i => ⟨some frame_rgb, some (5000, 77), fun k => if i = 1 ∧ k = 2 then 9 else ESP_OK⟩⟩

/-- The first pass succeeds on a JPEG frame; the second capture fails. -/
def env_second_capture_fails : Env :=
  ⟨ESP_OK, fun i => ⟨if i = 0 then some frame_jpeg else none, none, fun _ => ESP_OK⟩⟩

/-- The call `httpd_resp_set_type` fails with code `259`. -/
def env_set_type_fails : Env := ⟨259, fun _ => ⟨some frame_jpeg, none, fun _ => ESP_OK⟩⟩

end CameraHttpd

namespace CameraHttpd
open pixformat_t

/-! ## Lemmas on single passes -/

theorem ESP_FAIL_ne_OK : ESP_FAIL ≠ ESP_OK := by decide

theorem send_part_res (it : Iteration) (l : Locals) (h : l.res = ESP_OK) :
    ((send_part it l).1.res = ESP_OK ↔
      (it.chunk 0 = ESP_OK ∧ it.chunk 1 = ESP_OK ∧ it.chunk 2 = ESP_OK ∧ it.chunk 3 = ESP_OK)) := by
  simp only [send_part, send_chunk_if_ok]
  split_ifs <;> simp_all

theorem send_part_fields (it : Iteration) (l : Locals) :
    (send_part it l).1.fb = l.fb ∧ (send_part it l).1._jpg_buf = l._jpg_buf ∧
    (send_part it l).1._jpg_buf_len = l._jpg_buf_len := by
  simp only [send_part, send_chunk_if_ok]
  split_ifs <;> simp_all

theorem send_part_all_chunks (it : Iteration) (l : Locals) :
    ∀ e ∈ (send_part it l).2, e.is_chunk = true := by
  simp only [send_part, send_chunk_if_ok]
  split_ifs <;> simp_all [Event.is_chunk]

theorem send_part_chunks (it : Iteration) (l : Locals) (h : l.res = ESP_OK) :
    ∃ m, m ≤ 4 ∧ chunks (send_part it l).2 = (four_chunks l).take m ∧
      ((send_part it l).1.res = ESP_OK → m = 4) ∧ 0 < m := by
  simp only [send_part, send_chunk_if_ok, four_chunks, delimiter]
  by_cases h0 : it.chunk 0 = ESP_OK
  · by_cases h1 : it.chunk 1 = ESP_OK
    · by_cases h2 : it.chunk 2 = ESP_OK
      · exact ⟨4, by simp [h, h0, h1, h2, chunks, strlen]; decide⟩
      · exact ⟨3, by simp [h, h0, h1, h2, chunks, strlen]; decide⟩
    · exact ⟨2, by simp [h, h0, h1, chunks, strlen]; decide⟩
  · exact ⟨1, by simp [h, h0, chunks, strlen]; decide⟩

theorem send_part_fail (it : Iteration) (l : Locals) (h : l.res = ESP_OK) (k : Nat) (hk : k < 4)
    (hok : ∀ j < k, it.chunk j = ESP_OK) (herr : it.chunk k ≠ ESP_OK) :
    (send_part it l).1.res = it.chunk k ∧
    ∃ pre buf len, (send_part it l).2 = pre ++ [Event.send_chunk buf len (it.chunk k)] ∧
      (chunks pre).length = k ∧ (∀ e ∈ pre, e.is_chunk = true) := by
  simp only [send_part, send_chunk_if_ok]
  have h4 : k = 0 ∨ k = 1 ∨ k = 2 ∨ k = 3 := by omega
  rcases h4 with rfl | rfl | rfl | rfl
  · exact ⟨by simp [h, herr], [], Buf.lit "--frame\r\n", strlen "--frame\r\n",
      by simp [h, herr], rfl, by simp⟩
  · have h0 := hok 0 (by omega)
    exact ⟨by simp [h, h0, herr],
      [Event.send_chunk (Buf.lit "--frame\r\n") (strlen "--frame\r\n") ESP_OK],
      Buf.lit "Content-Type: image/jpeg\r\n\r\n", strlen "Content-Type: image/jpeg\r\n\r\n",
      by simp [h, h0, herr], rfl, by simp [Event.is_chunk]⟩
  · have h0 := hok 0 (by omega)
    have h1 := hok 1 (by omega)
    exact ⟨by simp [h, h0, h1, herr],
      [Event.send_chunk (Buf.lit "--frame\r\n") (strlen "--frame\r\n") ESP_OK,
       Event.send_chunk (Buf.lit "Content-Type: image/jpeg\r\n\r\n")
         (strlen "Content-Type: image/jpeg\r\n\r\n") ESP_OK],
      Buf.mem l._jpg_buf, l._jpg_buf_len,
      by simp [h, h0, h1, herr], rfl, by simp [Event.is_chunk]⟩
  · have h0 := hok 0 (by omega)
    have h1 := hok 1 (by omega)
    have h2 := hok 2 (by omega)
    exact ⟨by simp [h, h0, h1, h2],
      [Event.send_chunk (Buf.lit "--frame\r\n") (strlen "--frame\r\n") ESP_OK,
       Event.send_chunk (Buf.lit "Content-Type: image/jpeg\r\n\r\n")
         (strlen "Content-Type: image/jpeg\r\n\r\n") ESP_OK,
       Event.send_chunk (Buf.mem l._jpg_buf) l._jpg_buf_len ESP_OK],
      Buf.lit "\r\n", strlen "\r\n",
      by simp [h, h0, h1, h2], rfl, by simp [Event.is_chunk]⟩

theorem release_frame_eq (fb : camera_fb_t) (l : Locals) :
    release_frame fb l =
      ({ l with fb := none, _jpg_buf := if fb.format ≠ PIXFORMAT_JPEG then 0 else l._jpg_buf },
       (if fb.format ≠ PIXFORMAT_JPEG then [Event.free l._jpg_buf] else []) ++
         [Event.fb_return fb] ++
         (if l.res ≠ ESP_OK then [Event.log "Client disconnected or error occurred"] else []),
       decide (l.res ≠ ESP_OK)) := by
  simp only [release_frame]
  split_ifs <;> simp_all

theorem loop_body_none (it : Iteration) (l : Locals) (hfb : it.fb = none) :
    loop_body it l =
      ({ l with fb := none, res := ESP_FAIL },
       [Event.fb_get none, Event.log "Camera capture failed"], true) := by
  simp [loop_body, hfb]

theorem loop_body_jpgfail (it : Iteration) (l : Locals) (fb : camera_fb_t)
    (hfb : it.fb = some fb) (hf : fb.format ≠ PIXFORMAT_JPEG) (hj : it.jpg = none) :
    loop_body it l =
      ({ l with fb := some fb, res := ESP_FAIL },
       [Event.fb_get (some fb), Event.frame2jpg fb 80 none,
        Event.log "JPEG compression failed", Event.fb_return fb], true) := by
  simp [loop_body, hfb, hf, hj]

theorem loop_body_jpeg (it : Iteration) (l : Locals) (fb : camera_fb_t)
    (hfb : it.fb = some fb) (hf : fb.format = PIXFORMAT_JPEG) :
    loop_body it l =
      ({ (send_part it { l with fb := some fb, _jpg_buf_len := fb.len, _jpg_buf := fb.buf }).1
           with fb := none },
       [Event.fb_get (some fb)] ++
         (send_part it { l with fb := some fb, _jpg_buf_len := fb.len, _jpg_buf := fb.buf }).2 ++
         [Event.fb_return fb] ++
         (if (send_part it { l with fb := some fb, _jpg_buf_len := fb.len, _jpg_buf := fb.buf }).1.res
              ≠ ESP_OK
          then [Event.log "Client disconnected or error occurred"] else []),
       decide ((send_part it { l with fb := some fb, _jpg_buf_len := fb.len,
                                      _jpg_buf := fb.buf }).1.res ≠ ESP_OK)) := by
  simp [loop_body, hfb, hf, release_frame_eq]

theorem loop_body_raw (it : Iteration) (l : Locals) (fb : camera_fb_t) (out out_len : Nat)
    (hfb : it.fb = some fb) (hf : fb.format ≠ PIXFORMAT_JPEG) (hj : it.jpg = some (out, out_len)) :
    loop_body it l =
      ({ (send_part it { l with fb := some fb, _jpg_buf := out, _jpg_buf_len := out_len }).1
           with fb := none, _jpg_buf := 0 },
       [Event.fb_get (some fb), Event.frame2jpg fb 80 (some (out, out_len))] ++
         (send_part it { l with fb := some fb, _jpg_buf := out, _jpg_buf_len := out_len }).2 ++
         [Event.free out, Event.fb_return fb] ++
         (if (send_part it { l with fb := some fb, _jpg_buf := out, _jpg_buf_len := out_len }).1.res
              ≠ ESP_OK
          then [Event.log "Client disconnected or error occurred"] else []),
       decide ((send_part it { l with fb := some fb, _jpg_buf := out,
                                      _jpg_buf_len := out_len }).1.res ≠ ESP_OK)) := by
  simp [loop_body, hfb, hf, hj, release_frame_eq, (send_part_fields it _).2.1]

/-- A pass ends in `break` exactly when some call of it fails; `res` is `ESP_OK` after a
pass that continues and an error after a pass that breaks. -/
theorem loop_body_break_iff (it : Iteration) (l : Locals) (h : l.res = ESP_OK) :
    ((loop_body it l).2.2 = false ↔ it.ok = true) ∧
    ((loop_body it l).2.2 = false → (loop_body it l).1.res = ESP_OK ∧ (loop_body it l).1.fb = none) ∧
    ((loop_body it l).2.2 = true → (loop_body it l).1.res ≠ ESP_OK) := by
  cases hfb : it.fb with
  | none => simp [loop_body_none it l hfb, Iteration.ok, hfb, ESP_FAIL_ne_OK]
  | some fb =>
    by_cases hf : fb.format = PIXFORMAT_JPEG
    · have hr := send_part_res it { l with fb := some fb, _jpg_buf_len := fb.len, _jpg_buf := fb.buf } h
      simp [loop_body_jpeg it l fb hfb hf, Iteration.ok, hfb, hf, hr, and_assoc]
      tauto
    · cases hj : it.jpg with
      | none => simp [loop_body_jpgfail it l fb hfb hf hj, Iteration.ok, hfb, hf, hj, ESP_FAIL_ne_OK]
      | some o =>
        obtain ⟨out, out_len⟩ := o
        have hr := send_part_res it { l with fb := some fb, _jpg_buf := out, _jpg_buf_len := out_len } h
        simp [loop_body_raw it l fb out out_len hfb hf hj, Iteration.ok, hfb, hf, hj, hr, and_assoc]
        tauto

/-! ## Lemmas on what is held -/

theorem Held.after_append (h : Held) (a b : List Event) :
    h.after (a ++ b) = (h.after a).after b := by
  induction a generalizing h with
  | nil => rfl
  | cons e es ih => simp [Held.after, ih]

theorem Held.step_quiet (h : Held) (e : Event) (h1 : e.is_fb_get = false)
    (h2 : e.is_frame2jpg = false) :
    (h.step e).bufs.length ≤ h.bufs.length ∧ (h.step e).frames.length ≤ h.frames.length := by
  cases e <;> simp_all [Held.step, Event.is_fb_get, Event.is_frame2jpg]
  · exact (List.erase_sublist _ _).length_le
  · exact (List.erase_sublist _ _).length_le

theorem Held.after_chunks (h : Held) (es : List Event) (hes : ∀ e ∈ es, e.is_chunk = true) :
    h.after es = h := by
  induction es generalizing h with
  | nil => rfl
  | cons e es ih =>
    have he := hes e (by simp)
    cases e <;> simp_all [Held.after, Held.step, Event.is_chunk]

theorem Quiet.append (h : Held) (a b : List Event) :
    Quiet h (a ++ b) ↔ Quiet h a ∧ Quiet (h.after a) b := by
  induction a generalizing h with
  | nil =>
    simp only [List.nil_append, Quiet, Held.after, iff_and_self]
    intro hb
    cases b with
    | nil => exact hb
    | cons e es => exact hb.1
  | cons e es ih => simp [Quiet, Held.after, ih, and_assoc]

theorem Quiet.bufs (h : Held) (es : List Event) (hq : Quiet h es) : h.bufs.length ≤ 1 := by
  cases es with
  | nil => exact hq
  | cons e es => exact hq.1

/-- Calls that acquire nothing keep the invariant. -/
theorem Quiet.of_no_acquire (h : Held) (es : List Event) (hb : h.bufs.length ≤ 1)
    (hes : ∀ e ∈ es, e.is_fb_get = false ∧ e.is_frame2jpg = false) : Quiet h es := by
  induction es generalizing h with
  | nil => exact hb
  | cons e es ih =>
    have he := hes e (by simp)
    refine ⟨hb, by simp [he.1], ih _ ?_ (fun x hx => hes x (by simp [hx]))⟩
    exact le_trans (Held.step_quiet h e he.1 he.2).1 hb

/-! ## Lemmas on the loop -/

theorem stream_loop_break (iter : Nat → Iteration) (fuel i : Nat) (l : Locals)
    (h : (loop_body (iter i) l).2.2 = true) :
    stream_loop iter (fuel + 1) i l = ((loop_body (iter i) l).2.1, some (loop_body (iter i) l).1) := by
  rcases hb : loop_body (iter i) l with ⟨l1, e1, b⟩
  rw [hb] at h
  simp only at h
  subst h
  simp [stream_loop, hb]

theorem stream_loop_cont (iter : Nat → Iteration) (fuel i : Nat) (l : Locals)
    (h : (loop_body (iter i) l).2.2 = false) :
    stream_loop iter (fuel + 1) i l =
      ((loop_body (iter i) l).2.1 ++ (stream_loop iter fuel (i + 1) (loop_body (iter i) l).1).1,
       (stream_loop iter fuel (i + 1) (loop_body (iter i) l).1).2) := by
  rcases hb : loop_body (iter i) l with ⟨l1, e1, b⟩
  rw [hb] at h
  simp only at h
  subst h
  simp [stream_loop, hb]

/-- While every pass succeeds the loop keeps running, and more fuel only extends the run. -/
theorem stream_loop_ok (iter : Nat → Iteration) :
    ∀ (n i : Nat) (l : Locals), l.res = ESP_OK → (∀ j < n, (iter (i + j)).ok = true) →
      (stream_loop iter n i l).2 = none ∧
      ∃ l1 : Locals, l1.res = ESP_OK ∧ ∀ fuel,
        stream_loop iter (n + fuel) i l =
          ((stream_loop iter n i l).1 ++ (stream_loop iter fuel (i + n) l1).1,
           (stream_loop iter fuel (i + n) l1).2) := by
  intro n
  induction n with
  | zero =>
    intro i l hl _
    exact ⟨rfl, l, hl, fun fuel => by simp [stream_loop]⟩
  | succ n ih =>
    intro i l hl hok
    have hb := loop_body_break_iff (iter i) l hl
    have hc : (loop_body (iter i) l).2.2 = false := hb.1.2 (by simpa using hok 0 (by omega))
    obtain ⟨h1, l1, hl1, h2⟩ := ih (i + 1) (loop_body (iter i) l).1 (hb.2.1 hc).1
      (fun j hj => by simpa [Nat.add_assoc, Nat.add_comm 1 j] using hok (j + 1) (by omega))
    refine ⟨by rw [stream_loop_cont iter n i l hc]; exact h1, l1, hl1, fun fuel => ?_⟩
    have e : n + 1 + fuel = (n + fuel) + 1 := by omega
    rw [e, stream_loop_cont iter (n + fuel) i l hc, stream_loop_cont iter n i l hc, h2 fuel]
    simp [Nat.add_assoc, Nat.add_comm 1 n]

/-- The loop is left only in a pass in which some call fails, and then with an error. -/
theorem stream_loop_some (iter : Nat → Iteration) :
    ∀ (fuel i : Nat) (l l1 : Locals), l.res = ESP_OK → (stream_loop iter fuel i l).2 = some l1 →
      l1.res ≠ ESP_OK ∧
      ∃ m, m < fuel ∧ (∀ j < m, (iter (i + j)).ok = true) ∧ (iter (i + m)).ok = false := by
  intro fuel
  induction fuel with
  | zero => intro i l l1 _ h; simp [stream_loop] at h
  | succ n ih =>
    intro i l l1 hl h
    have hb := loop_body_break_iff (iter i) l hl
    cases hc : (loop_body (iter i) l).2.2 with
    | true =>
      rw [stream_loop_break iter n i l hc] at h
      simp only [Option.some.injEq] at h
      subst h
      refine ⟨hb.2.2 hc, 0, by omega, by simp, ?_⟩
      have : ¬ (iter i).ok = true := fun hk => by simpa [hc] using hb.1.2 hk
      simpa using this
    | false =>
      rw [stream_loop_cont iter n i l hc] at h
      obtain ⟨h1, m, hm, hpre, hbad⟩ := ih (i + 1) _ l1 (hb.2.1 hc).1 h
      refine ⟨h1, m + 1, by omega, ?_, by simpa [Nat.add_assoc, Nat.add_comm 1 m] using hbad⟩
      intro j hj
      cases j with
      | zero => simpa using hb.1.1 hc
      | succ j =>
        simpa [Nat.add_assoc, Nat.add_comm 1 j] using hpre j (by omega)

theorem loop_trace_break (iter : Nat → Iteration) (fuel i : Nat) (l : Locals)
    (h : (loop_body (iter i) l).2.2 = true) :
    loop_trace iter (fuel + 1) i l =
      (loop_body (iter i) l).2.1 ++ cleanup (loop_body (iter i) l).1 := by
  simp [loop_trace, stream_loop_break iter fuel i l h]

theorem loop_trace_cont (iter : Nat → Iteration) (fuel i : Nat) (l : Locals)
    (h : (loop_body (iter i) l).2.2 = false) :
    loop_trace iter (fuel + 1) i l =
      (loop_body (iter i) l).2.1 ++ loop_trace iter fuel (i + 1) (loop_body (iter i) l).1 := by
  simp [loop_trace, stream_loop_cont iter fuel i l h]

theorem chunk_no_acquire (e : Event) (h : e.is_chunk = true) :
    e.is_fb_get = false ∧ e.is_frame2jpg = false := by
  cases e <;> simp_all [Event.is_chunk, Event.is_fb_get, Event.is_frame2jpg]

theorem cleanup_no_acquire (l : Locals) :
    ∀ e ∈ cleanup l, e.is_fb_get = false ∧ e.is_frame2jpg = false ∧ e.is_chunk = false := by
  intro e he
  simp only [cleanup] at he
  cases hfb : l.fb <;> by_cases hb : l._jpg_buf = 0 <;>
    simp_all [Event.is_fb_get, Event.is_frame2jpg, Event.is_chunk]
  rcases he with rfl | rfl <;> simp

theorem send_part_ok (it : Iteration) (l : Locals) (h : l.res = ESP_OK)
    (h0 : it.chunk 0 = ESP_OK) (h1 : it.chunk 1 = ESP_OK) (h2 : it.chunk 2 = ESP_OK)
    (h3 : it.chunk 3 = ESP_OK) :
    (send_part it l).1.res = ESP_OK ∧ chunks (send_part it l).2 = four_chunks l := by
  simp [send_part, send_chunk_if_ok, h, h0, h1, h2, h3, chunks, four_chunks, delimiter, strlen]
  decide

theorem Quiet.cons (h : Held) (e : Event) (es : List Event) :
    Quiet h (e :: es) ↔
      h.bufs.length ≤ 1 ∧ (e.is_fb_get = true → h = ⟨[], []⟩) ∧ Quiet (h.step e) es :=
  Iff.rfl

/-- A pass started holding nothing keeps the invariant, also when followed by calls that
acquire nothing. -/
theorem loop_body_quiet (it : Iteration) (l : Locals) (c : List Event)
    (hc : ∀ e ∈ c, e.is_fb_get = false ∧ e.is_frame2jpg = false) :
    Quiet ⟨[], []⟩ ((loop_body it l).2.1 ++ c) := by
  cases hfb : it.fb with
  | none =>
    rw [loop_body_none it l hfb]
    simp only [List.cons_append, List.nil_append, Quiet.cons]
    refine ⟨by simp, by simp, by simp [Held.step], by simp [Event.is_fb_get], ?_⟩
    exact Quiet.of_no_acquire _ _ (by simp [Held.step]) hc
  | some fb =>
    by_cases hf : fb.format = PIXFORMAT_JPEG
    · rw [loop_body_jpeg it l fb hfb hf]
      simp only [List.cons_append, List.nil_append, List.append_assoc, Quiet.cons]
      refine ⟨by simp, by simp, ?_⟩
      apply Quiet.of_no_acquire _ _ (by simp [Held.step])
      intro e he
      simp only [List.mem_append, List.mem_cons, List.not_mem_nil, or_false] at he
      rcases he with he | rfl | he | he
      · exact chunk_no_acquire e (send_part_all_chunks it _ e he)
      · simp [Event.is_fb_get, Event.is_frame2jpg]
      · split_ifs at he <;> simp_all [Event.is_fb_get, Event.is_frame2jpg]
      · exact hc e he
    · cases hj : it.jpg with
      | none =>
        rw [loop_body_jpgfail it l fb hfb hf hj]
        simp only [List.cons_append, List.nil_append, Quiet.cons]
        refine ⟨by simp, by simp, by simp [Held.step], by simp [Event.is_fb_get],
          by simp [Held.step], by simp [Event.is_fb_get], by simp [Held.step],
          by simp [Event.is_fb_get], ?_⟩
        exact Quiet.of_no_acquire _ _ (by simp [Held.step]) hc
      | some o =>
        obtain ⟨out, out_len⟩ := o
        rw [loop_body_raw it l fb out out_len hfb hf hj]
        simp only [List.cons_append, List.nil_append, List.append_assoc, Quiet.cons]
        refine ⟨by simp, by simp, by simp [Held.step], by simp [Event.is_fb_get], ?_⟩
        apply Quiet.of_no_acquire _ _ (by simp [Held.step])
        intro e he
        simp only [List.mem_append, List.mem_cons, List.not_mem_nil, or_false] at he
        rcases he with he | rfl | rfl | he | he
        · exact chunk_no_acquire e (send_part_all_chunks it _ e he)
        · simp [Event.is_fb_get, Event.is_frame2jpg]
        · simp [Event.is_fb_get, Event.is_frame2jpg]
        · split_ifs at he <;> simp_all [Event.is_fb_get, Event.is_frame2jpg]
        · exact hc e he

/-- A pass that does not break gives back everything it acquired. -/
theorem loop_body_after (it : Iteration) (l : Locals) (h : Held)
    (hc : (loop_body it l).2.2 = false) : h.after (loop_body it l).2.1 = h := by
  cases hfb : it.fb with
  | none => simp [loop_body_none it l hfb] at hc
  | some fb =>
    by_cases hf : fb.format = PIXFORMAT_JPEG
    · rw [loop_body_jpeg it l fb hfb hf] at hc ⊢
      simp only [ne_eq, decide_not, Bool.not_eq_false', decide_eq_true_eq] at hc
      simp [hc, Held.after_append, Held.after, Held.step,
        Held.after_chunks _ _ (send_part_all_chunks it _)]
    · cases hj : it.jpg with
      | none => simp [loop_body_jpgfail it l fb hfb hf hj] at hc
      | some o =>
        obtain ⟨out, out_len⟩ := o
        rw [loop_body_raw it l fb out out_len hfb hf hj] at hc ⊢
        simp only [ne_eq, decide_not, Bool.not_eq_false', decide_eq_true_eq] at hc
        simp [hc, Held.after_append, Held.after, Held.step,
          Held.after_chunks _ _ (send_part_all_chunks it _)]

/-- The invariant holds along the loop and the cleanup block. -/
theorem loop_trace_quiet (iter : Nat → Iteration) :
    ∀ (fuel i : Nat) (l : Locals), l.res = ESP_OK → Quiet ⟨[], []⟩ (loop_trace iter fuel i l) := by
  intro fuel
  induction fuel with
  | zero => intro i l _; simp [loop_trace, stream_loop, Quiet]
  | succ n ih =>
    intro i l hl
    cases hc : (loop_body (iter i) l).2.2 with
    | true =>
      rw [loop_trace_break iter n i l hc]
      exact loop_body_quiet _ _ _ (fun e he =>
        ⟨(cleanup_no_acquire _ e he).1, (cleanup_no_acquire _ e he).2.1⟩)
    | false =>
      rw [loop_trace_cont iter n i l hc, Quiet.append, loop_body_after _ _ _ hc]
      refine ⟨?_, ih _ _ ((loop_body_break_iff (iter i) l hl).2.1 hc).1⟩
      simpa using loop_body_quiet (iter i) l [] (by simp)

/-- What the invariant says about a point inside the run. -/
theorem Quiet.split (h : Held) (pre post : List Event) (hq : Quiet h (pre ++ post)) :
    (h.after pre).bufs.length ≤ 1 ∧
    ∀ r post1, post = Event.fb_get r :: post1 → h.after pre = ⟨[], []⟩ := by
  rw [Quiet.append] at hq
  refine ⟨Quiet.bufs _ _ hq.2, ?_⟩
  intro r post1 hp
  subst hp
  exact hq.2.2.1 rfl

/-! ## Lemmas on runs of the handler -/

theorem chunks_append (a b : List Event) : chunks (a ++ b) = chunks a ++ chunks b := by
  induction a with
  | nil => rfl
  | cons e es ih => cases e <;> simp [chunks, ih]

theorem chunks_of_no_chunk (es : List Event) (h : ∀ e ∈ es, e.is_chunk = false) :
    chunks es = [] := by
  induction es with
  | nil => rfl
  | cons e es ih =>
    have he := h e (by simp)
    cases e <;> simp_all [chunks, Event.is_chunk]

theorem stream_handler_fail (env : Env) (fuel : Nat) (h : env.set_type ≠ ESP_OK) :
    stream_handler env fuel =
      ([Event.set_type "multipart/x-mixed-replace;boundary=frame"],
       some env.set_type) := by
  simp [stream_handler, h]

theorem stream_handler_ok (env : Env) (fuel : Nat) (h : env.set_type = ESP_OK) :
    (stream_handler env fuel).1 =
      [Event.set_type "multipart/x-mixed-replace;boundary=frame",
       Event.set_hdr "Access-Control-Allow-Origin" "*",
       Event.set_hdr "X-Framerate" "60"] ++
      loop_trace env.iter fuel 0 ⟨none, ESP_OK, 0, 0⟩ ∧
    (stream_handler env fuel).2 =
      (stream_loop env.iter fuel 0 ⟨none, ESP_OK, 0, 0⟩).2.map Locals.res := by
  simp only [stream_handler, h, loop_trace]
  rcases stream_loop env.iter fuel 0 ⟨none, ESP_OK, 0, 0⟩ with ⟨e, _ | l1⟩ <;> simp

theorem jpeg_bytes_ok (it : Iteration) (hok : it.ok = true) :
    ∃ p n, jpeg_bytes it = some (p, n) := by
  unfold Iteration.ok at hok
  unfold jpeg_bytes
  cases hfb : it.fb with
  | none => simp [hfb] at hok
  | some fb =>
    by_cases hf : fb.format = PIXFORMAT_JPEG
    · exact ⟨fb.buf, fb.len, by simp [hf]⟩
    · cases hj : it.jpg with
      | none => simp [hfb, hf, hj] at hok
      | some o => exact ⟨o.1, o.2, by simp [hf]⟩

/-- The calls of a pass in which every call succeeds. -/
theorem loop_body_ok (it : Iteration) (l : Locals) (hl : l.res = ESP_OK) (hok : it.ok = true) :
    chunks (loop_body it l).2.1 = part_chunks it ∧ (part_chunks it).length = 4 ∧
    (loop_body it l).2.1.countP Event.is_fb_get = 1 := by
  have hok1 := hok
  unfold Iteration.ok at hok
  cases hfb : it.fb with
  | none => simp [hfb] at hok
  | some fb =>
    simp only [hfb, Bool.and_eq_true, decide_eq_true_eq] at hok
    obtain ⟨⟨⟨⟨h, h0⟩, h1⟩, h2⟩, h3⟩ := hok
    by_cases hf : fb.format = PIXFORMAT_JPEG
    · have hs := send_part_ok it { l with fb := some fb, _jpg_buf_len := fb.len, _jpg_buf := fb.buf }
        hl h0 h1 h2 h3
      have hc := send_part_all_chunks it
        { l with fb := some fb, _jpg_buf_len := fb.len, _jpg_buf := fb.buf }
      rw [loop_body_jpeg it l fb hfb hf]
      refine ⟨?_, by simp [part_chunks, jpeg_bytes, hfb, hf], ?_⟩
      · simp [chunks_append, hs, chunks, part_chunks, jpeg_bytes, hfb, hf, four_chunks, delimiter]
      · simp only [List.countP_append, List.countP_cons, List.countP_nil, hs.1]
        rw [List.countP_eq_zero.2 (fun e he => by simp [(chunk_no_acquire e (hc e he)).1])]
        simp [Event.is_fb_get]
    · cases hj : it.jpg with
      | none => simp [hf, hj] at h
      | some o =>
        obtain ⟨out, out_len⟩ := o
        have hs := send_part_ok it
          { l with fb := some fb, _jpg_buf := out, _jpg_buf_len := out_len } hl h0 h1 h2 h3
        have hc := send_part_all_chunks it
          { l with fb := some fb, _jpg_buf := out, _jpg_buf_len := out_len }
        rw [loop_body_raw it l fb out out_len hfb hf hj]
        refine ⟨?_, by simp [part_chunks, jpeg_bytes, hfb, hf, hj], ?_⟩
        · simp [chunks_append, hs, chunks, part_chunks, jpeg_bytes, hfb, hf, hj, four_chunks,
            delimiter]
        · simp only [List.countP_append, List.countP_cons, List.countP_nil, hs.1]
          rw [List.countP_eq_zero.2 (fun e he => by simp [(chunk_no_acquire e (hc e he)).1])]
          simp [Event.is_fb_get]

theorem stream_loop_one (iter : Nat → Iteration) (i : Nat) (l : Locals) :
    (stream_loop iter 1 i l).1 = (loop_body (iter i) l).2.1 := by
  cases hc : (loop_body (iter i) l).2.2 with
  | true => rw [stream_loop_break iter 0 i l hc]
  | false => rw [stream_loop_cont iter 0 i l hc]; simp [stream_loop]

/-- The calls of the first `n` passes when all of them succeed. -/
theorem stream_loop_ok_events (iter : Nat → Iteration) (l : Locals) (hl : l.res = ESP_OK) :
    ∀ n, (∀ j < n, (iter j).ok = true) →
      chunks (stream_loop iter n 0 l).1 = stream_chunks iter n ∧
      (stream_chunks iter n).length = 4 * n ∧
      (stream_loop iter n 0 l).1.countP Event.is_fb_get = n ∧
      ∀ h : Held, h.after (stream_loop iter n 0 l).1 = h := by
  intro n
  induction n with
  | zero => intro _; simp [stream_loop, chunks, stream_chunks, Held.after]
  | succ n ih =>
    intro hok
    obtain ⟨h1, h2, h3, h4⟩ := ih (fun j hj => hok j (by omega))
    obtain ⟨hn, l1, hl1, hx⟩ := stream_loop_ok iter n 0 l hl
      (fun j hj => by simpa using hok j (by omega))
    have hb := loop_body_ok (iter n) l1 hl1 (hok n (by omega))
    have hc := (loop_body_break_iff (iter n) l1 hl1).1.2 (hok n (by omega))
    rw [hx 1, stream_loop_one]
    simp only [Nat.zero_add]
    refine ⟨by simp [chunks_append, h1, hb.1, stream_chunks], ?_, ?_, ?_⟩
    · simp [stream_chunks, h2, hb.2.1]; omega
    · simp [List.countP_append, h3, hb.2.2]
    · intro h
      rw [Held.after_append, h4, loop_body_after _ _ _ hc]

/-! ## The claims -/

/-- C3: when `esp_camera_fb_get` answers `NULL`, `jpg_handler` logs the failure, sends an
HTTP 500 through `httpd_resp_send_500` and returns `ESP_FAIL`; these are all its calls, so
it sets no image header, sends no body and does not call `esp_camera_fb_return`. -/
theorem C3_jpg_handler_no_frame (send_res : esp_err_t) :
    jpg_handler none send_res =
      ([Event.fb_get none, Event.log "Camera capture failed", Event.send_500], ESP_FAIL) :=
  rfl

/-- C7: when `esp_camera_fb_get` answers a frame, `jpg_handler` sets the type `image/jpeg`,
sets `Access-Control-Allow-Origin`, sends the frame's bytes (`fb->buf`, `fb->len`) in one
`httpd_resp_send`, returns the frame to the driver once, after the send, and returns the
result of the send, whatever it is. -/
theorem C7_jpg_handler_frame (fb : camera_fb_t) (send_res : esp_err_t) :
    jpg_handler (some fb) send_res =
      ([Event.fb_get (some fb),
        Event.set_type "image/jpeg",
        Event.set_hdr "Content-Disposition" "inline; filename=capture.jpg",
        Event.set_hdr "Access-Control-Allow-Origin" "*",
        Event.send (Buf.mem fb.buf) fb.len send_res,
        Event.fb_return fb],
       send_res) :=
  rfl

/-- C1 (failing input): an RGB565 frame whose transcode fails is returned to the driver
twice, once on the `break` path (line 86) and once more by the cleanup block (line 125),
although it was obtained once. -/
theorem C1_transcode_failure_returns_frame_twice :
    stream_handler env_transcode_fails 1 =
      ([Event.set_type "multipart/x-mixed-replace;boundary=frame",
        Event.set_hdr "Access-Control-Allow-Origin" "*",
        Event.set_hdr "X-Framerate" "60",
        Event.fb_get (some frame_rgb),
        Event.frame2jpg frame_rgb 80 none,
        Event.log "JPEG compression failed",
        Event.fb_return frame_rgb,
        Event.fb_return frame_rgb],
       some ESP_FAIL) ∧
    (stream_handler env_transcode_fails 1).1.count (Event.fb_get (some frame_rgb)) = 1 ∧
    (stream_handler env_transcode_fails 1).1.count (Event.fb_return frame_rgb) = 2 := by
  decide

/-- C9 (failing input): a JPEG frame whose first chunk write fails.  No `frame2jpg` is ever
called, yet the cleanup block calls `free` on the frame's own data buffer (`fb->buf`, kept
in `_jpg_buf`), after the frame was returned to the driver. -/
theorem C9_cleanup_frees_driver_buffer :
    stream_handler env_jpeg_write_fails 1 =
      ([Event.set_type "multipart/x-mixed-replace;boundary=frame",
        Event.set_hdr "Access-Control-Allow-Origin" "*",
        Event.set_hdr "X-Framerate" "60",
        Event.fb_get (some frame_jpeg),
        Event.send_chunk (Buf.lit "--frame\r\n") 9 ESP_FAIL,
        Event.fb_return frame_jpeg,
        Event.log "Client disconnected or error occurred",
        Event.free frame_jpeg.buf],
       some ESP_FAIL) ∧
    free_ok ⟨[], []⟩ (stream_handler env_jpeg_write_fails 1).1 = false := by
  decide

/-- C8 (counterexample): the content type `stream_handler` sets is not the string
`multipart/x-mixed-replace; boundary=frame`: the program's literal has no blank after the
semicolon. -/
theorem C8_content_type_differs :
    ¬ ∃ rest, (stream_handler env_all_ok 1).1 =
        Event.set_type "multipart/x-mixed-replace; boundary=frame" :: rest := by
  rintro ⟨rest, h⟩
  rw [(stream_handler_ok env_all_ok 1 rfl).1] at h
  simp only [List.cons_append, List.cons.injEq, Event.set_type.injEq] at h
  exact absurd h.1 (by decide)

theorem stream_handler_quiet (env : Env) (fuel : Nat) :
    Quiet ⟨[], []⟩ (stream_handler env fuel).1 := by
  by_cases h : env.set_type = ESP_OK
  · rw [(stream_handler_ok env fuel h).1]
    simp only [List.cons_append, List.nil_append, Quiet.cons]
    exact ⟨by simp, by simp [Event.is_fb_get], by simp [Held.step], by simp [Event.is_fb_get],
      by simp [Held.step], by simp [Event.is_fb_get], loop_trace_quiet env.iter fuel 0 _ rfl⟩
  · rw [stream_handler_fail env fuel h]
    simp [Quiet, Event.is_fb_get, Held.step]

/-- C4: at every point of every run of `stream_handler` at most one transcode buffer is
live, and at every call of `esp_camera_fb_get` nothing is held: every frame acquired
before has been returned and every transcode buffer allocated before has been freed. -/
theorem C4_nothing_held_at_capture (env : Env) (fuel : Nat) (pre post : List Event)
    (h : (stream_handler env fuel).1 = pre ++ post) :
    (held pre).bufs.length ≤ 1 ∧
    ∀ r post1, post = Event.fb_get r :: post1 → held pre = ⟨[], []⟩ := by
  have hq := stream_handler_quiet env fuel
  rw [h] at hq
  exact Quiet.split _ pre post hq

/-- C4 at the second capture of a run that transcodes every frame. -/
theorem C4_nothing_held_at_capture_witness :
    (held ((stream_handler env_rgb_ok 2).1.take 11)).bufs.length ≤ 1 ∧
    held ((stream_handler env_rgb_ok 2).1.take 11) = ⟨[], []⟩ :=
  ⟨(C4_nothing_held_at_capture env_rgb_ok 2 ((stream_handler env_rgb_ok 2).1.take 11)
      ((stream_handler env_rgb_ok 2).1.drop 11) (List.take_append_drop _ _).symm).1,
   (C4_nothing_held_at_capture env_rgb_ok 2 ((stream_handler env_rgb_ok 2).1.take 11)
      ((stream_handler env_rgb_ok 2).1.drop 11) (List.take_append_drop _ _).symm).2
      (some frame_rgb) ((stream_handler env_rgb_ok 2).1.drop 12) (by decide)⟩

/-- C6: when `httpd_resp_set_type` and the first `n` passes succeed, the chunks written by
these passes are, pass by pass in frame order, the boundary line `--frame\r\n`, the header
line `Content-Type: image/jpeg\r\n\r\n`, the JPEG bytes of the pass (the frame's `buf` and
`len` if it is JPEG, else what `frame2jpg` produced) and `\r\n`: four chunks per pass. -/
theorem C6_chunk_trace (env : Env) (n : Nat) (hset : env.set_type = ESP_OK)
    (hok : ∀ j < n, (env.iter j).ok = true) :
    chunks (stream_handler env n).1 = stream_chunks env.iter n ∧
    (stream_chunks env.iter n).length = 4 * n ∧
    ∀ j < n, ∃ p len, jpeg_bytes (env.iter j) = some (p, len) ∧
      part_chunks (env.iter j) =
        [(Buf.lit "--frame\r\n", 9), (Buf.lit "Content-Type: image/jpeg\r\n\r\n", 28),
         (Buf.mem p, len), (Buf.lit "\r\n", 2)] := by
  have hl := stream_loop_ok env.iter n 0 ⟨none, ESP_OK, 0, 0⟩ rfl (by simpa using hok)
  have he := stream_loop_ok_events env.iter ⟨none, ESP_OK, 0, 0⟩ rfl n hok
  refine ⟨?_, he.2.1, ?_⟩
  · rw [(stream_handler_ok env n hset).1]
    simp [loop_trace, hl.1, chunks_append, chunks, he.1]
  · intro j hj
    obtain ⟨p, len, hp⟩ := jpeg_bytes_ok (env.iter j) (hok j hj)
    exact ⟨p, len, hp, by simp [part_chunks, hp]⟩

/-- C6 on two passes that transcode an RGB565 frame. -/
theorem C6_chunk_trace_witness :
    chunks (stream_handler env_rgb_ok 2).1 =
      [(Buf.lit "--frame\r\n", 9), (Buf.lit "Content-Type: image/jpeg\r\n\r\n", 28),
       (Buf.mem 5000, 77), (Buf.lit "\r\n", 2),
       (Buf.lit "--frame\r\n", 9), (Buf.lit "Content-Type: image/jpeg\r\n\r\n", 28),
       (Buf.mem 5000, 77), (Buf.lit "\r\n", 2)] :=
  (C6_chunk_trace env_rgb_ok 2 rfl (by decide)).1.trans (by decide)

/-- A run whose first `i` passes succeed, seen from pass `i` on. -/
theorem stream_handler_split (env : Env) (fuel i : Nat) (hset : env.set_type = ESP_OK)
    (hpre : ∀ j < i, (env.iter j).ok = true) :
    (stream_handler env i).2 = none ∧
    (stream_handler env i).1.countP Event.is_fb_get = i ∧
    chunks (stream_handler env i).1 = stream_chunks env.iter i ∧
    (stream_chunks env.iter i).length = 4 * i ∧
    held (stream_handler env i).1 = ⟨[], []⟩ ∧
    ∃ l1 : Locals, l1.res = ESP_OK ∧
      (stream_handler env (i + fuel)).1 = (stream_handler env i).1 ++ loop_trace env.iter fuel i l1 ∧
      (stream_handler env (i + fuel)).2 = (stream_loop env.iter fuel i l1).2.map Locals.res := by
  obtain ⟨hn, l1, hl1, hx⟩ := stream_loop_ok env.iter i 0 ⟨none, ESP_OK, 0, 0⟩ rfl
    (by simpa using hpre)
  obtain ⟨h1, h2, h3, h4⟩ := stream_loop_ok_events env.iter ⟨none, ESP_OK, 0, 0⟩ rfl i hpre
  have hi := stream_handler_ok env i hset
  have hf := stream_handler_ok env (i + fuel) hset
  have hti : loop_trace env.iter i 0 ⟨none, ESP_OK, 0, 0⟩ =
      (stream_loop env.iter i 0 ⟨none, ESP_OK, 0, 0⟩).1 := by simp [loop_trace, hn]
  refine ⟨by rw [hi.2, hn]; rfl, ?_, ?_, h2, ?_, l1, hl1, ?_, ?_⟩
  · rw [hi.1, hti]; simp [List.countP_cons, Event.is_fb_get, h3]
  · rw [hi.1, hti]; simp [chunks_append, chunks, h1]
  · rw [hi.1, hti]; simp [held, Held.after_append, Held.after, Held.step, h4]
  · rw [hf.1, hi.1, hti]
    simp [loop_trace, hx fuel]
  · rw [hf.2, hx fuel]
    simp

theorem countP_cleanup (l : Locals) :
    (cleanup l).countP Event.is_fb_get = 0 ∧ (cleanup l).countP Event.is_frame2jpg = 0 ∧
    chunks (cleanup l) = [] :=
  ⟨List.countP_eq_zero.2 (fun e he => by simp [(cleanup_no_acquire l e he).1]),
   List.countP_eq_zero.2 (fun e he => by simp [(cleanup_no_acquire l e he).2.1]),
   chunks_of_no_chunk _ (fun e he => (cleanup_no_acquire l e he).2.2)⟩

/-- C5: if in pass `i` the capture fails, or the frame is not JPEG and `frame2jpg` fails,
the handler returns `ESP_FAIL`; after the calls of the passes before, it makes one
`esp_camera_fb_get` call, at most one `frame2jpg` call and no chunk write. -/
theorem C5_capture_or_transcode_failure (env : Env) (fuel i : Nat)
    (hset : env.set_type = ESP_OK) (hpre : ∀ j < i, (env.iter j).ok = true)
    (hfail : (env.iter i).fb = none ∨
      ∃ fb, (env.iter i).fb = some fb ∧ fb.format ≠ PIXFORMAT_JPEG ∧ (env.iter i).jpg = none)
    (hfuel : i < fuel) :
    (stream_handler env fuel).2 = some ESP_FAIL ∧
    (stream_handler env i).2 = none ∧
    (stream_handler env i).1.countP Event.is_fb_get = i ∧
    ∃ tail, (stream_handler env fuel).1 = (stream_handler env i).1 ++ tail ∧
      chunks tail = [] ∧ tail.countP Event.is_fb_get = 1 ∧
      tail.countP Event.is_frame2jpg ≤ 1 := by
  obtain ⟨m, rfl⟩ : ∃ m, fuel = i + (m + 1) := ⟨fuel - i - 1, by omega⟩
  obtain ⟨h1, h2, -, -, -, l1, hl1, h3, h4⟩ := stream_handler_split env (m + 1) i hset hpre
  have hc := countP_cleanup
  rcases hfail with hfb | ⟨fb, hfb, hf, hj⟩
  · have hb := loop_body_none (env.iter i) l1 hfb
    have hbrk : (loop_body (env.iter i) l1).2.2 = true := by rw [hb]
    have ht : loop_trace env.iter (m + 1) i l1 =
        [Event.fb_get none, Event.log "Camera capture failed"] ++
          cleanup { l1 with fb := none, res := ESP_FAIL } := by
      rw [loop_trace_break _ _ _ _ hbrk, hb]
    rw [stream_loop_break _ _ _ _ hbrk, hb] at h4
    rw [ht] at h3
    refine ⟨by rw [h4]; rfl, h1, h2, _, h3, ?_, ?_, ?_⟩
    · rw [chunks_append, (hc _).2.2]; rfl
    · rw [List.countP_append, (hc _).1]; rfl
    · rw [List.countP_append, (hc _).2.1]; decide
  · have hb := loop_body_jpgfail (env.iter i) l1 fb hfb hf hj
    have hbrk : (loop_body (env.iter i) l1).2.2 = true := by rw [hb]
    have ht : loop_trace env.iter (m + 1) i l1 =
        [Event.fb_get (some fb), Event.frame2jpg fb 80 none,
         Event.log "JPEG compression failed", Event.fb_return fb] ++
          cleanup { l1 with fb := some fb, res := ESP_FAIL } := by
      rw [loop_trace_break _ _ _ _ hbrk, hb]
    rw [stream_loop_break _ _ _ _ hbrk, hb] at h4
    rw [ht] at h3
    refine ⟨by rw [h4]; rfl, h1, h2, _, h3, ?_, ?_, ?_⟩
    · rw [chunks_append, (hc _).2.2]; rfl
    · rw [List.countP_append, (hc _).1]; rfl
    · rw [List.countP_append, (hc _).2.1]; simp [List.countP_cons, Event.is_frame2jpg]

/-- C5 on a run whose second capture fails. -/
theorem C5_capture_or_transcode_failure_witness :
    (stream_handler env_second_capture_fails 3).2 = some ESP_FAIL :=
  (C5_capture_or_transcode_failure env_second_capture_fails 3 1 rfl (by decide)
    (Or.inl rfl) (by decide)).1

/-- A pass whose `k`-th chunk write fails, followed by the cleanup block. -/
theorem pass_write_fail (it : Iteration) (l : Locals) (hl : l.res = ESP_OK) (fb : camera_fb_t)
    (hfb : it.fb = some fb) (hjpg : fb.format ≠ PIXFORMAT_JPEG → it.jpg ≠ none)
    (k : Nat) (hk : k < 4) (hok : ∀ j < k, it.chunk j = ESP_OK) (herr : it.chunk k ≠ ESP_OK) :
    (loop_body it l).2.2 = true ∧ (loop_body it l).1.res = it.chunk k ∧
    Held.after ⟨[], []⟩ ((loop_body it l).2.1 ++ cleanup (loop_body it l).1) = ⟨[], []⟩ ∧
    ∃ pre buf len post,
      (loop_body it l).2.1 ++ cleanup (loop_body it l).1 =
        pre ++ Event.send_chunk buf len (it.chunk k) :: post ∧
      (chunks pre).length = k ∧ pre.countP Event.is_fb_get = 1 ∧
      ∀ e ∈ post, e.is_chunk = false ∧ e.is_fb_get = false := by
  by_cases hf : fb.format = PIXFORMAT_JPEG
  · obtain ⟨hr, pre, buf, len, hs, hlen, hpre⟩ := send_part_fail it
      { l with fb := some fb, _jpg_buf_len := fb.len, _jpg_buf := fb.buf } hl k hk hok herr
    have hall := send_part_all_chunks it
      { l with fb := some fb, _jpg_buf_len := fb.len, _jpg_buf := fb.buf }
    have hne : (send_part it
      { l with fb := some fb, _jpg_buf_len := fb.len, _jpg_buf := fb.buf }).1.res ≠ ESP_OK := by
      rw [hr]; exact herr
    rw [loop_body_jpeg it l fb hfb hf]
    refine ⟨by simpa using hne, hr, ?_, [Event.fb_get (some fb)] ++ pre, buf, len,
      [Event.fb_return fb, Event.log "Client disconnected or error occurred"] ++
        cleanup { (send_part it
          { l with fb := some fb, _jpg_buf_len := fb.len, _jpg_buf := fb.buf }).1 with fb := none },
      ?_, ?_, ?_, ?_⟩
    · simp only [if_pos hne, Held.after_append, Held.after_chunks _ _ hall]
      simp only [cleanup, (send_part_fields it _).2.1]
      by_cases hb : fb.buf = 0 <;> simp [Held.after, Held.step, hb]
    · simp [if_pos hne, hs]
    · simpa [chunks_append, chunks] using hlen
    · have hz : pre.countP Event.is_fb_get = 0 :=
        List.countP_eq_zero.2 (fun e he => by simp [(chunk_no_acquire e (hpre e he)).1])
      rw [List.countP_append, hz]
      simp [List.countP_cons, Event.is_fb_get]
    · intro e he
      simp only [List.cons_append, List.nil_append, List.mem_cons] at he
      rcases he with rfl | rfl | he
      · simp [Event.is_chunk, Event.is_fb_get]
      · simp [Event.is_chunk, Event.is_fb_get]
      · exact ⟨(cleanup_no_acquire _ e he).2.2, (cleanup_no_acquire _ e he).1⟩
  · cases hj : it.jpg with
    | none => exact absurd hj (hjpg hf)
    | some o =>
      obtain ⟨out, out_len⟩ := o
      obtain ⟨hr, pre, buf, len, hs, hlen, hpre⟩ := send_part_fail it
        { l with fb := some fb, _jpg_buf := out, _jpg_buf_len := out_len } hl k hk hok herr
      have hall := send_part_all_chunks it
        { l with fb := some fb, _jpg_buf := out, _jpg_buf_len := out_len }
      have hne : (send_part it
        { l with fb := some fb, _jpg_buf := out, _jpg_buf_len := out_len }).1.res ≠ ESP_OK := by
        rw [hr]; exact herr
      rw [loop_body_raw it l fb out out_len hfb hf hj]
      refine ⟨by simpa using hne, hr, ?_,
        [Event.fb_get (some fb), Event.frame2jpg fb 80 (some (out, out_len))] ++ pre, buf, len,
        [Event.free out, Event.fb_return fb, Event.log "Client disconnected or error occurred"] ++
          cleanup { (send_part it
            { l with fb := some fb, _jpg_buf := out, _jpg_buf_len := out_len }).1
              with fb := none, _jpg_buf := 0 },
        ?_, ?_, ?_, ?_⟩
      · simp only [if_pos hne, Held.after_append, Held.after_chunks _ _ hall]
        simp [cleanup, Held.after, Held.step]
      · simp [if_pos hne, hs]
      · simpa [chunks_append, chunks] using hlen
      · have hz : pre.countP Event.is_fb_get = 0 :=
          List.countP_eq_zero.2 (fun e he => by simp [(chunk_no_acquire e (hpre e he)).1])
        rw [List.countP_append, hz]
        simp [List.countP_cons, Event.is_fb_get]
      · intro e he
        simp only [List.cons_append, List.nil_append, List.mem_cons] at he
        rcases he with rfl | rfl | rfl | he
        · simp [Event.is_chunk, Event.is_fb_get]
        · simp [Event.is_chunk, Event.is_fb_get]
        · simp [Event.is_chunk, Event.is_fb_get]
        · exact ⟨(cleanup_no_acquire _ e he).2.2, (cleanup_no_acquire _ e he).1⟩

/-- C2: if the `k`-th chunk write (`k = 0, 1, 2, 3`) of pass `i` fails, whatever the format
of the frame, the handler returns the error code of that write; the failing write is
followed by no chunk write and no capture, and at the return nothing is held: every frame
acquired has been returned and every transcode buffer allocated has been freed. -/
theorem C2_write_failure (env : Env) (fuel i k : Nat) (fb : camera_fb_t)
    (hset : env.set_type = ESP_OK) (hpre : ∀ j < i, (env.iter j).ok = true)
    (hfb : (env.iter i).fb = some fb)
    (hjpg : fb.format ≠ PIXFORMAT_JPEG → (env.iter i).jpg ≠ none)
    (hk : k < 4) (hok : ∀ j < k, (env.iter i).chunk j = ESP_OK)
    (herr : (env.iter i).chunk k ≠ ESP_OK) (hfuel : i < fuel) :
    (stream_handler env fuel).2 = some ((env.iter i).chunk k) ∧
    held (stream_handler env fuel).1 = ⟨[], []⟩ ∧
    ∃ pre buf len post,
      (stream_handler env fuel).1 =
        pre ++ Event.send_chunk buf len ((env.iter i).chunk k) :: post ∧
      (chunks pre).length = 4 * i + k ∧ pre.countP Event.is_fb_get = i + 1 ∧
      ∀ e ∈ post, e.is_chunk = false ∧ e.is_fb_get = false := by
  obtain ⟨m, rfl⟩ : ∃ m, fuel = i + (m + 1) := ⟨fuel - i - 1, by omega⟩
  obtain ⟨-, h2, h3, h4, h5, l1, hl1, h6, h7⟩ := stream_handler_split env (m + 1) i hset hpre
  obtain ⟨hbrk, hres, hheld, pre, buf, len, post, hsplit, hlen, hcnt, hpost⟩ :=
    pass_write_fail (env.iter i) l1 hl1 fb hfb hjpg k hk hok herr
  rw [loop_trace_break _ _ _ _ hbrk] at h6
  rw [stream_loop_break _ _ _ _ hbrk] at h7
  refine ⟨by rw [h7]; simp [hres], ?_, (stream_handler env i).1 ++ pre, buf, len, post, ?_, ?_,
    ?_, hpost⟩
  · rw [h6]
    unfold held at h5 ⊢
    rw [Held.after_append, h5, hheld]
  · rw [h6, hsplit, List.append_assoc]
  · rw [chunks_append, List.length_append, h3, h4, hlen]
  · rw [List.countP_append, h2, hcnt]

/-- C2 on a run whose second pass fails at its third chunk write. -/
theorem C2_write_failure_witness :
    (stream_handler env_second_pass_write_fails 5).2 = some 9 ∧
    held (stream_handler env_second_pass_write_fails 5).1 = ⟨[], []⟩ :=
  ⟨(C2_write_failure env_second_pass_write_fails 5 1 2 frame_rgb rfl (by decide) rfl
      (by decide) (by decide) (by decide) (by decide) (by decide)).1,
   (C2_write_failure env_second_pass_write_fails 5 1 2 frame_rgb rfl (by decide) rfl
      (by decide) (by decide) (by decide) (by decide) (by decide)).2.1⟩

/-- C10: `stream_handler` never returns `ESP_OK`.  If `httpd_resp_set_type` fails it
returns that error at once, having captured no frame and written no chunk.  Otherwise it
returns only after a pass in which a capture, a transcode or a chunk write failed; and as
long as all of these succeed it does not return: after `fuel` passes it is still running,
having captured `fuel` frames and written `4 * fuel` chunks. -/
theorem C10_never_returns_ok (env : Env) (fuel : Nat) :
    (∀ r, (stream_handler env fuel).2 = some r → r ≠ ESP_OK) ∧
    (env.set_type ≠ ESP_OK →
      stream_handler env fuel =
        ([Event.set_type "multipart/x-mixed-replace;boundary=frame"], some env.set_type)) ∧
    (env.set_type = ESP_OK → ∀ r, (stream_handler env fuel).2 = some r →
      ∃ i, i < fuel ∧ (∀ j < i, (env.iter j).ok = true) ∧ (env.iter i).ok = false) ∧
    (env.set_type = ESP_OK → (∀ j < fuel, (env.iter j).ok = true) →
      (stream_handler env fuel).2 = none ∧
      (stream_handler env fuel).1.countP Event.is_fb_get = fuel ∧
      (chunks (stream_handler env fuel).1).length = 4 * fuel) := by
  have key : env.set_type = ESP_OK → ∀ r, (stream_handler env fuel).2 = some r →
      r ≠ ESP_OK ∧
      ∃ i, i < fuel ∧ (∀ j < i, (env.iter j).ok = true) ∧ (env.iter i).ok = false := by
    intro hset r hr
    rw [(stream_handler_ok env fuel hset).2] at hr
    cases hl : (stream_loop env.iter fuel 0 ⟨none, ESP_OK, 0, 0⟩).2 with
    | none => simp [hl] at hr
    | some l1 =>
      simp only [hl, Option.map_some', Option.some.injEq] at hr
      obtain ⟨h1, m, hm, hpre, hbad⟩ := stream_loop_some env.iter fuel 0 _ l1 rfl hl
      exact ⟨hr ▸ h1, m, hm, by simpa using hpre, by simpa using hbad⟩
  refine ⟨?_, stream_handler_fail env fuel, fun hset r hr => (key hset r hr).2, ?_⟩
  · intro r hr
    by_cases hset : env.set_type = ESP_OK
    · exact (key hset r hr).1
    · rw [stream_handler_fail env fuel hset] at hr
      simp only [Option.some.injEq] at hr
      exact hr ▸ hset
  · intro hset hok
    obtain ⟨h1, h2, h3, h4, -⟩ := stream_handler_split env 0 fuel hset hok
    exact ⟨h1, h2, by rw [h3, h4]⟩

/-- C10 on a run in which everything succeeds, on one whose `httpd_resp_set_type` fails,
and on one whose first chunk write fails. -/
theorem C10_never_returns_ok_witness :
    ((stream_handler env_all_ok 5).2 = none ∧
      (stream_handler env_all_ok 5).1.countP Event.is_fb_get = 5 ∧
      (chunks (stream_handler env_all_ok 5).1).length = 4 * 5) ∧
    stream_handler env_set_type_fails 5 =
      ([Event.set_type "multipart/x-mixed-replace;boundary=frame"], some 259) ∧
    (∃ i, i < 5 ∧ (∀ j < i, (env_jpeg_write_fails.iter j).ok = true) ∧
      (env_jpeg_write_fails.iter i).ok = false) ∧
    ESP_FAIL ≠ ESP_OK :=
  ⟨(C10_never_returns_ok env_all_ok 5).2.2.2 rfl (by decide),
   (C10_never_returns_ok env_set_type_fails 5).2.1 (by decide),
   (C10_never_returns_ok env_jpeg_write_fails 5).2.2.1 rfl ESP_FAIL (by decide),
   (C10_never_returns_ok env_jpeg_write_fails 5).1 ESP_FAIL (by decide)⟩

/-- The chunks of one pass are the first chunks of a part; all four when the pass does not
break. -/
theorem loop_body_chunks (it : Iteration) (l : Locals) (hl : l.res = ESP_OK) :
    ∃ (l1 : Locals) (m : Nat), m ≤ 4 ∧ chunks (loop_body it l).2.1 = (four_chunks l1).take m ∧
      ((loop_body it l).2.2 = false → m = 4) := by
  cases hfb : it.fb with
  | none => exact ⟨l, 0, by omega, by simp [loop_body_none it l hfb, chunks], by
      simp [loop_body_none it l hfb]⟩
  | some fb =>
    by_cases hf : fb.format = PIXFORMAT_JPEG
    · obtain ⟨m, hm, hc, hr, -⟩ := send_part_chunks it
        { l with fb := some fb, _jpg_buf_len := fb.len, _jpg_buf := fb.buf } hl
      refine ⟨{ l with fb := some fb, _jpg_buf_len := fb.len, _jpg_buf := fb.buf }, m, hm, ?_, ?_⟩
      · rw [loop_body_jpeg it l fb hfb hf]
        simp only [chunks_append, hc]
        split_ifs <;> simp [chunks]
      · rw [loop_body_jpeg it l fb hfb hf]
        intro hb
        exact hr (by simpa using hb)
    · cases hj : it.jpg with
      | none => exact ⟨l, 0, by omega, by simp [loop_body_jpgfail it l fb hfb hf hj, chunks], by
          simp [loop_body_jpgfail it l fb hfb hf hj]⟩
      | some o =>
        obtain ⟨out, out_len⟩ := o
        obtain ⟨m, hm, hc, hr, -⟩ := send_part_chunks it
          { l with fb := some fb, _jpg_buf := out, _jpg_buf_len := out_len } hl
        refine ⟨{ l with fb := some fb, _jpg_buf := out, _jpg_buf_len := out_len }, m, hm, ?_, ?_⟩
        · rw [loop_body_raw it l fb out out_len hfb hf hj]
          simp only [chunks_append, hc]
          split_ifs <;> simp [chunks]
        · rw [loop_body_raw it l fb out out_len hfb hf hj]
          intro hb
          exact hr (by simpa using hb)

/-- Every fourth chunk of the loop, from the first, is the boundary line. -/
theorem loop_trace_delimiters (iter : Nat → Iteration) :
    ∀ (fuel i : Nat) (l : Locals), l.res = ESP_OK →
      ∀ j c, (chunks (loop_trace iter fuel i l))[4 * j]? = some c → c = delimiter := by
  intro fuel
  induction fuel with
  | zero => intro i l _ j c h; simp [loop_trace, stream_loop, chunks] at h
  | succ n ih =>
    intro i l hl j c h
    obtain ⟨l1, m, hm, hc, hfull⟩ := loop_body_chunks (iter i) l hl
    cases hb : (loop_body (iter i) l).2.2 with
    | true =>
      rw [loop_trace_break iter n i l hb, chunks_append, (countP_cleanup _).2.2,
        List.append_nil, hc] at h
      have hlt : 4 * j < ((four_chunks l1).take m).length := by
        by_contra hge
        rw [List.getElem?_eq_none (by omega)] at h
        exact absurd h (by simp)
      have hj : j = 0 := by
        simp [four_chunks] at hlt
        omega
      subst hj
      cases m with
      | zero => simp at h
      | succ m => simpa [four_chunks] using h.symm
    | false =>
      have hm4 := hfull hb
      subst hm4
      rw [loop_trace_cont iter n i l hb, chunks_append, hc] at h
      cases j with
      | zero => simpa [four_chunks] using h.symm
      | succ j =>
        rw [List.getElem?_append_right (by simp [four_chunks])] at h
        have hidx : 4 * (j + 1) - (List.take 4 (four_chunks l1)).length = 4 * j := by
          simp [four_chunks]; omega
        rw [hidx] at h
        exact ih _ _ ((loop_body_break_iff (iter i) l hl).2.1 hb).1 j c h

/-- C8 (amended): the first call of `stream_handler` sets the content type
`multipart/x-mixed-replace;boundary=frame` (no blank after the semicolon), before any
capture and any chunk write; and the first chunk of every part, that is every fourth chunk
written, is the delimiter `--frame\r\n` made of the same boundary token `frame`. -/
theorem C8_content_type_and_boundary (env : Env) (fuel : Nat) :
    (∃ rest, (stream_handler env fuel).1 =
      Event.set_type ("multipart/x-mixed-replace;boundary=" ++ "frame") :: rest) ∧
    ∀ j c, (chunks (stream_handler env fuel).1)[4 * j]? = some c →
      c = (Buf.lit ("--" ++ "frame" ++ "\r\n"), 9) := by
  have hs : "multipart/x-mixed-replace;boundary=" ++ "frame" =
      "multipart/x-mixed-replace;boundary=frame" := by decide
  have hd : (Buf.lit ("--" ++ "frame" ++ "\r\n"), 9) = delimiter := by decide
  rw [hs, hd]
  by_cases hset : env.set_type = ESP_OK
  · rw [(stream_handler_ok env fuel hset).1]
    refine ⟨⟨_, rfl⟩, ?_⟩
    intro j c h
    simp only [List.cons_append, List.nil_append, chunks] at h
    exact loop_trace_delimiters env.iter fuel 0 _ rfl j c h
  · rw [stream_handler_fail env fuel hset]
    exact ⟨⟨_, rfl⟩, fun j c h => by simp [chunks] at h⟩

/-- C8 (amended) on the second part of a run that transcodes every frame. -/
theorem C8_content_type_and_boundary_witness :
    (Buf.lit "--frame\r\n", 9) = (Buf.lit ("--" ++ "frame" ++ "\r\n"), 9) :=
  (C8_content_type_and_boundary env_rgb_ok 2).2 1 (Buf.lit "--frame\r\n", 9) (by decide)

end CameraHttpd
